import Mathlib

/-!
Shallow embedding of the raw-request routing and execution layer of the
`client-rust` repository (files `src/raw/requests.rs` and `src/raw.rs`).

Byte strings (`Key`, `Value`) are lists of naturals; asynchronous streams of
`Result` elements are lists of `Except Error` values, ordered as the stream
would yield them; futures collapse to their resolved values.  Each concrete
operation (`RawGet`, `RawBatchGet`, `RawPut`, `RawBatchPut`, `RawBatchDelete`,
`RawDeleteRange`, `RawScan`, `RawBatchScan`) carries its fields from the
source and its `store_stream` / `into_request` / `map_result` / `reduce`
methods translated from `src/raw/requests.rs`.  The facade request inners
(`ScanInner`, `BatchScanInner`, `DeleteRangeInner`) come from `src/raw.rs`.
Parts of the repository that are not in the provided sources (the `PdClient`
topology resolver, `KeyRange::into_keys`, the `RpcClient` wrapper methods)
are modelled from the spec and marked as such in their doc comments.
-/

namespace ClientRust

/-- Opaque byte-string key (`Key` in the source). -/
abbrev Key := List Nat

/-- Opaque byte-string value (`Value` in the source). -/
abbrev Value := List Nat

/-- Key/value pair (`KvPair` in the source). -/
abbrev KvPair := Key × Value

/-- Column family selector (`ColumnFamily` wraps a `String`). -/
abbrev ColumnFamily := String

/-- Error classes of the client that the modelled code paths can produce:
`Error::empty_value()`, `Error::max_scan_limit_exceeded(limit, max)`,
`Error::invalid_key_range()`, `Error::unimplemented()`, and dispatch-level
(network / node) failures collapsed into `grpc`. -/
inductive Error where
  | emptyValue : Error
  | maxScanLimitExceeded (limit max : Nat) : Error
  | invalidKeyRange : Error
  | unimplemented : Error
  | grpc (code : Nat) : Error
deriving DecidableEq, Repr

/-- Region metadata: a contiguous slice of the keyspace with an id. -/
structure Region where
  id : Nat
  startKey : Key
  endKey : Key
deriving DecidableEq, Repr

/-- The region's own bounds, as returned by `store.region.range()`. -/
def Region.range (r : Region) : Key × Key := (r.startKey, r.endKey)

/-- Node handle (`Store` in the source): a dispatch target bound to the
region it was resolved for. -/
structure Store where
  region : Region
deriving DecidableEq, Repr

/-- A `BoundRange` collapsed to (start bound, end bound); `none` means the
side is unbounded. -/
abbrev BoundRange := Option Key × Option Key

/-- Modelled from the spec: the topology resolver (`PdClient`) contract of
section 6, whose implementation is not among the provided source files.
`regionOf` gives the region a key currently falls in (it induces the
`group_by_region` disjoint partition), `storeForKey` / `storeForId` resolve
owning node handles, and `storesForRange` streams the handles of every
region intersecting a range. -/
structure PdClient where
  regionOf : Key → Nat
  storeForKey : Key → Except Error Store
  storeForId : Nat → Except Error Store
  storesForRange : BoundRange → List (Except Error Store)

/-- Lexicographic comparison of byte-string keys. -/
def keyLt : Key → Key → Bool
  | [], [] => false
  | [], _ :: _ => true
  | _ :: _, [] => false
  | a :: as, b :: bs => if a < b then true else if b < a then false else keyLt as bs

/-- Modelled from the spec: `KeyRange::into_keys` (not among the provided
source files) converts a caller range into the wire `(start, optional end)`
pair, failing with `InvalidKeyRange` when both bounds are bounded and the
start is greater than the end; an unbounded start becomes the empty key. -/
def intoKeys (r : BoundRange) : Except Error (Key × Option Key) :=
  match r with
  | (s, some e) =>
    let sk := s.getD []
    if keyLt e sk then Except.error Error.invalidKeyRange else Except.ok (sk, some e)
  | (s, none) => Except.ok (s.getD [], none)

/-- Grouping of a key collection by the region each element currently falls
in, one group per distinct region id in order of first occurrence
(`group_keys_by_region` of the topology resolver; modelled from the spec as
a disjoint partition keyed by `regionOf`). -/
def groupByRegion {α : Type} (rid : α → Nat) : List α → List (Nat × List α)
  | [] => []
  | x :: xs =>
    (rid x, x :: xs.filter (fun y => rid y == rid x)) ::
      groupByRegion rid (xs.filter (fun y => !(rid y == rid x)))
termination_by l => l.length
decreasing_by
  simp only [List.length_cons]
  exact Nat.lt_succ_of_le (List.length_filter_le _ _)

/-- Stream concatenation (`try_concat` of the futures crate): the first
error aborts, otherwise all partial lists are concatenated in order. -/
def tryConcat {α : Type} : List (Except Error (List α)) → Except Error (List α)
  | [] => Except.ok []
  | Except.error e :: _ => Except.error e
  | Except.ok l :: rest => (tryConcat rest).map (fun t => l ++ t)

/-- Stream collection into `()` (`try_collect` on unit results): succeeds
exactly when every element is a success, otherwise the first error wins. -/
def tryCollectUnit : List (Except Error Unit) → Except Error Unit
  | [] => Except.ok ()
  | Except.error e :: _ => Except.error e
  | Except.ok _ :: rest => tryCollectUnit rest

/-- The key groups carried by the successful elements of a store stream,
in stream order. -/
def okKeyGroups {β : Type} : List (Except Error (β × Store)) → List β
  | [] => []
  | Except.ok (g, _) :: rest => g :: okKeyGroups rest
  | Except.error _ :: rest => okKeyGroups rest

/-- Wire request for `raw_get` (`kvrpcpb::RawGetRequest`). -/
structure RawGetRequest where
  key : Key
  cf : Option ColumnFamily
deriving DecidableEq, Repr

/-- Wire response for `raw_get` (`kvrpcpb::RawGetResponse`). -/
structure RawGetResponse where
  value : Value
deriving DecidableEq, Repr

/-- Wire request for `raw_put` (`kvrpcpb::RawPutRequest`). -/
structure RawPutRequest where
  key : Key
  value : Value
  cf : Option ColumnFamily
deriving DecidableEq, Repr

/-- Wire request for `raw_batch_put` (`kvrpcpb::RawBatchPutRequest`). -/
structure RawBatchPutRequest where
  pairs : List KvPair
  cf : Option ColumnFamily
deriving DecidableEq, Repr

/-- Wire request for `raw_batch_get` (`kvrpcpb::RawBatchGetRequest`). -/
structure RawBatchGetRequest where
  keys : List Key
  cf : Option ColumnFamily
deriving DecidableEq, Repr

/-- Wire request for `raw_batch_delete` (`kvrpcpb::RawBatchDeleteRequest`). -/
structure RawBatchDeleteRequest where
  keys : List Key
  cf : Option ColumnFamily
deriving DecidableEq, Repr

/-- Wire request for `raw_delete_range` (`kvrpcpb::RawDeleteRangeRequest`). -/
structure RawDeleteRangeRequest where
  startKey : Key
  endKey : Key
  cf : Option ColumnFamily
deriving DecidableEq, Repr

/-- Wire request for `raw_scan` (`kvrpcpb::RawScanRequest`). -/
structure RawScanRequest where
  startKey : Key
  endKey : Key
  limit : Nat
  key_only : Bool
  cf : Option ColumnFamily
deriving DecidableEq, Repr

/-- Wire response for `raw_scan` (`kvrpcpb::RawScanResponse`). -/
structure RawScanResponse where
  kvs : List KvPair
deriving DecidableEq, Repr

/-- Wire request for `raw_batch_scan` (`kvrpcpb::RawBatchScanRequest`). -/
structure RawBatchScanRequest where
  ranges : List BoundRange
  each_limit : Nat
  key_only : Bool
  cf : Option ColumnFamily
deriving DecidableEq, Repr

/-- Wire response for `raw_batch_scan` (`kvrpcpb::RawBatchScanResponse`). -/
structure RawBatchScanResponse where
  kvs : List KvPair
deriving DecidableEq, Repr

/-- Core of `RawRequest::execute`: walk the store stream in order; an error
element passes through untouched (`and_then`), a successful `(key, store)`
element is turned into a wire request, dispatched, and its response mapped
(`map_ok`).  Returns the list of partial results fed to `reduce` together
with the trace of wire requests actually dispatched. -/
def runPipeline {κ ρ σ π : Type}
    (stream : List (Except Error (κ × Store)))
    (intoRequest : κ → Store → ρ)
    (dispatch : ρ → Except Error σ)
    (mapResult : σ → π) :
    List (Except Error π) × List ρ :=
  match stream with
  | [] => ([], [])
  | Except.error e :: rest =>
    let r := runPipeline rest intoRequest dispatch mapResult
    (Except.error e :: r.1, r.2)
  | Except.ok (k, store) :: rest =>
    let req := intoRequest k store
    let r := runPipeline rest intoRequest dispatch mapResult
    match dispatch req with
    | Except.error e => (Except.error e :: r.1, req :: r.2)
    | Except.ok resp => (Except.ok (mapResult resp) :: r.1, req :: r.2)

/-- `RawGet` operation value. -/
structure RawGet where
  key : Key
  cf : Option ColumnFamily

/-- `RawGet::map_result`: an empty byte value in the response is reported as
absence (`None`), a non-empty value as `Some`. -/
def RawGet.map_result (resp : RawGetResponse) : Option Value :=
  let result : Value := resp.value
  if result.isEmpty then none else some result

/-- `RawBatchGet` operation value. -/
structure RawBatchGet where
  keys : List Key
  cf : Option ColumnFamily

/-- `RawBatchGet::store_stream`: group the keys by region, then resolve the
owning store of each region id and pair it with that region's key group. -/
def RawBatchGet.store_stream (pd : PdClient) (req : RawBatchGet) :
    List (Except Error (List Key × Store)) :=
  (groupByRegion pd.regionOf req.keys).map fun g =>
    Except.map (fun store => (g.2, store)) (pd.storeForId g.1)

/-- `RawBatchGet::reduce`: concatenate the per-region pair lists. -/
def RawBatchGet.reduce (results : List (Except Error (List KvPair))) :
    Except Error (List KvPair) :=
  tryConcat results

/-- `RawPut` operation value. -/
structure RawPut where
  key : Key
  value : Value
  cf : Option ColumnFamily

/-- `RawPut::new`: constructing a put with an empty value fails with
`Error::empty_value()` before anything else happens. -/
def RawPut.new (key : Key) (value : Value) (cf : Option ColumnFamily) :
    Except Error RawPut :=
  if value.isEmpty then Except.error Error.emptyValue
  else Except.ok { key := key, value := value, cf := cf }

/-- `RawPut::store_stream`: resolve the store owning the key; the routing
payload is the key/value pair. -/
def RawPut.store_stream (pd : PdClient) (req : RawPut) :
    List (Except Error (KvPair × Store)) :=
  [Except.map (fun store => ((req.key, req.value), store)) (pd.storeForKey req.key)]

/-- `RawPut::into_request`: build the wire request from the routed pair. -/
def RawPut.into_request (req : RawPut) (kv : KvPair) (_store : Store) :
    RawPutRequest :=
  { key := kv.1, value := kv.2, cf := req.cf }

/-- `RawPut::execute`: the generic pipeline instantiated for `RawPut`,
with `reduce` taking the single result. -/
def RawPut.execute (pd : PdClient)
    (dispatch : RawPutRequest → Except Error Unit) (req : RawPut) :
    Except Error Unit × List RawPutRequest :=
  let r := runPipeline (RawPut.store_stream pd req)
      (fun kv store => RawPut.into_request req kv store) dispatch (fun _ => ())
  (match r.1 with
   | [] => Except.error (Error.grpc 0)
   | x :: _ => x, r.2)

/-- `RawBatchPut` operation value. -/
structure RawBatchPut where
  pairs : List KvPair
  cf : Option ColumnFamily

/-- `RawBatchPut::new`: constructing a batch put fails with
`Error::empty_value()` when any pair's value is empty. -/
def RawBatchPut.new (pairs : List KvPair) (cf : Option ColumnFamily) :
    Except Error RawBatchPut :=
  if pairs.any (fun pair => pair.2.isEmpty) then Except.error Error.emptyValue
  else Except.ok { pairs := pairs, cf := cf }

/-- `RawBatchPut::store_stream`: group the pairs by the region of their key,
then resolve the owning store of each region id. -/
def RawBatchPut.store_stream (pd : PdClient) (req : RawBatchPut) :
    List (Except Error (List KvPair × Store)) :=
  (groupByRegion (fun pair => pd.regionOf pair.1) req.pairs).map fun g =>
    Except.map (fun store => (g.2, store)) (pd.storeForId g.1)

/-- `RawBatchPut::into_request`. -/
def RawBatchPut.into_request (req : RawBatchPut) (pairs : List KvPair)
    (_store : Store) : RawBatchPutRequest :=
  { pairs := pairs, cf := req.cf }

/-- `RawBatchPut::reduce`: `try_collect`, succeeding only when every
region's write succeeded. -/
def RawBatchPut.reduce (results : List (Except Error Unit)) :
    Except Error Unit :=
  tryCollectUnit results

/-- `RawBatchPut::execute`: the generic pipeline instantiated for
`RawBatchPut`. -/
def RawBatchPut.execute (pd : PdClient)
    (dispatch : RawBatchPutRequest → Except Error Unit) (req : RawBatchPut) :
    Except Error Unit × List RawBatchPutRequest :=
  let r := runPipeline (RawBatchPut.store_stream pd req)
      (fun pairs store => RawBatchPut.into_request req pairs store) dispatch (fun _ => ())
  (RawBatchPut.reduce r.1, r.2)

/-- `RawBatchDelete` operation value. -/
structure RawBatchDelete where
  keys : List Key
  cf : Option ColumnFamily

/-- `RawBatchDelete::store_stream`: identical routing to `RawBatchGet`. -/
def RawBatchDelete.store_stream (pd : PdClient) (req : RawBatchDelete) :
    List (Except Error (List Key × Store)) :=
  (groupByRegion pd.regionOf req.keys).map fun g =>
    Except.map (fun store => (g.2, store)) (pd.storeForId g.1)

/-- `RawBatchDelete::reduce`: `try_collect`, succeeding only when every
region's delete succeeded. -/
def RawBatchDelete.reduce (results : List (Except Error Unit)) :
    Except Error Unit :=
  tryCollectUnit results

/-- `RawDeleteRange` operation value. -/
structure RawDeleteRange where
  range : BoundRange
  cf : Option ColumnFamily

/-- `RawDeleteRange::store_stream`: stream the stores of every region
intersecting the range; the `(start, end)` routing pair attached to each
store is `store.region.range()`, the region's own bounds (the source marks
bounding it by `self.range` as a TODO). -/
def RawDeleteRange.store_stream (pd : PdClient) (req : RawDeleteRange) :
    List (Except Error ((Key × Key) × Store)) :=
  (pd.storesForRange req.range).map fun es =>
    Except.map (fun store => (store.region.range, store)) es

/-- `RawDeleteRange::into_request`. -/
def RawDeleteRange.into_request (req : RawDeleteRange) (k : Key × Key)
    (_store : Store) : RawDeleteRangeRequest :=
  { startKey := k.1, endKey := k.2, cf := req.cf }

/-- `RawDeleteRange::execute`: pipeline with first-result reduce. -/
def RawDeleteRange.execute (pd : PdClient)
    (dispatch : RawDeleteRangeRequest → Except Error Unit) (req : RawDeleteRange) :
    Except Error Unit × List RawDeleteRangeRequest :=
  let r := runPipeline (RawDeleteRange.store_stream pd req)
      (fun k store => RawDeleteRange.into_request req k store) dispatch (fun _ => ())
  (match r.1 with
   | [] => Except.error (Error.grpc 0)
   | x :: _ => x, r.2)

/-- `RawScan` operation value; the limit is treated as a per-region limit,
not a total limit (source comment). -/
structure RawScan where
  range : BoundRange
  limit : Nat
  key_only : Bool
  cf : Option ColumnFamily

/-- `RawScan::store_stream`: stream the stores of every region intersecting
the range; the routing pair attached to each store is
`store.region.range()`, the region's own bounds (bounding by `self.range`
is a TODO in the source). -/
def RawScan.store_stream (pd : PdClient) (req : RawScan) :
    List (Except Error ((Key × Key) × Store)) :=
  (pd.storesForRange req.range).map fun es =>
    Except.map (fun store => (store.region.range, store)) es

/-- `RawScan::into_request`: the wire request carries the routed start and
end keys and the caller's `limit` and `key_only` values unchanged. -/
def RawScan.into_request (req : RawScan) (k : Key × Key) (_store : Store) :
    RawScanRequest :=
  { startKey := k.1, endKey := k.2, limit := req.limit,
    key_only := req.key_only, cf := req.cf }

/-- `RawScan::map_result`: take the response's pair list. -/
def RawScan.map_result (resp : RawScanResponse) : List KvPair :=
  resp.kvs

/-- `RawScan::reduce`: concatenate the per-region pair lists. -/
def RawScan.reduce (results : List (Except Error (List KvPair))) :
    Except Error (List KvPair) :=
  tryConcat results

/-- `RawScan::execute`: the generic pipeline instantiated for `RawScan`. -/
def RawScan.execute (pd : PdClient)
    (dispatch : RawScanRequest → Except Error RawScanResponse) (req : RawScan) :
    Except Error (List KvPair) × List RawScanRequest :=
  let r := runPipeline (RawScan.store_stream pd req)
      (fun k store => RawScan.into_request req k store) dispatch RawScan.map_result
  (RawScan.reduce r.1, r.2)

/-- `RawBatchScan` operation value. -/
structure RawBatchScan where
  ranges : List BoundRange
  each_limit : Nat
  key_only : Bool
  cf : Option ColumnFamily

/-- `RawBatchScan::store_stream`: resolution is unimplemented; the stream
yields exactly one element, the `Error::unimplemented()` failure. -/
def RawBatchScan.store_stream (_pd : PdClient) (_req : RawBatchScan) :
    List (Except Error (List BoundRange × Store)) :=
  [Except.error Error.unimplemented]

/-- `RawBatchScan::map_result`: take the response's pair list. -/
def RawBatchScan.map_result (resp : RawBatchScanResponse) : List KvPair :=
  resp.kvs

/-- `RawBatchScan::reduce`: concatenate. -/
def RawBatchScan.reduce (results : List (Except Error (List KvPair))) :
    Except Error (List KvPair) :=
  tryConcat results

/-- `RawBatchScan::into_request`. -/
def RawBatchScan.into_request (req : RawBatchScan) (ranges : List BoundRange)
    (_store : Store) : RawBatchScanRequest :=
  { ranges := ranges, each_limit := req.each_limit,
    key_only := req.key_only, cf := req.cf }

/-- `RawBatchScan::execute`: the generic pipeline instantiated for
`RawBatchScan`. -/
def RawBatchScan.execute (pd : PdClient)
    (dispatch : RawBatchScanRequest → Except Error RawBatchScanResponse)
    (req : RawBatchScan) :
    Except Error (List KvPair) × List RawBatchScanRequest :=
  let r := runPipeline (RawBatchScan.store_stream pd req)
      (fun ranges store => RawBatchScan.into_request req ranges store) dispatch
      RawBatchScan.map_result
  (RawBatchScan.reduce r.1, r.2)

/-- Modelled from the spec: `RpcClient::raw_put` (not among the provided
source files) validates via `RawPut::new` and executes the request; a
validation failure yields the error with no wire call. -/
def rawPutCall (pd : PdClient) (dispatch : RawPutRequest → Except Error Unit)
    (key : Key) (value : Value) (cf : Option ColumnFamily) :
    Except Error Unit × List RawPutRequest :=
  match RawPut.new key value cf with
  | Except.error e => (Except.error e, [])
  | Except.ok req => RawPut.execute pd dispatch req

/-- Modelled from the spec: `RpcClient::raw_batch_put` (not among the
provided source files) validates via `RawBatchPut::new` and executes; a
validation failure yields the error with no wire call. -/
def rawBatchPutCall (pd : PdClient)
    (dispatch : RawBatchPutRequest → Except Error Unit)
    (pairs : List KvPair) (cf : Option ColumnFamily) :
    Except Error Unit × List RawBatchPutRequest :=
  match RawBatchPut.new pairs cf with
  | Except.error e => (Except.error e, [])
  | Except.ok req => RawBatchPut.execute pd dispatch req

/-- Modelled from the spec: `RpcClient::raw_scan` (not among the provided
source files) builds a `RawScan` from the validated `(start, optional end)`
keys and executes it. -/
def rawScanCall (pd : PdClient)
    (dispatch : RawScanRequest → Except Error RawScanResponse)
    (keys : Key × Option Key) (limit : Nat) (key_only : Bool)
    (cf : Option ColumnFamily) :
    Except Error (List KvPair) × List RawScanRequest :=
  RawScan.execute pd dispatch
    { range := (some keys.1, keys.2), limit := limit, key_only := key_only, cf := cf }

/-- Modelled from the spec: `RpcClient::raw_delete_range` (not among the
provided source files) builds a `RawDeleteRange` from the validated keys
and executes it. -/
def rawDeleteRangeCall (pd : PdClient)
    (dispatch : RawDeleteRangeRequest → Except Error Unit)
    (keys : Key × Option Key) (cf : Option ColumnFamily) :
    Except Error Unit × List RawDeleteRangeRequest :=
  RawDeleteRange.execute pd dispatch
    { range := (some keys.1, keys.2), cf := cf }

/-- Modelled from the spec: `RpcClient::raw_batch_scan` (not among the
provided source files) builds a `RawBatchScan` from the validated range
list and executes it. -/
def rawBatchScanCall (pd : PdClient)
    (dispatch : RawBatchScanRequest → Except Error RawBatchScanResponse)
    (ranges : List (Key × Option Key)) (each_limit : Nat) (key_only : Bool)
    (cf : Option ColumnFamily) :
    Except Error (List KvPair) × List RawBatchScanRequest :=
  RawBatchScan.execute pd dispatch
    { ranges := ranges.map (fun r => (some r.1, r.2)), each_limit := each_limit,
      key_only := key_only, cf := cf }

/-- Maximum scan limit (`MAX_RAW_KV_SCAN_LIMIT`). -/
def MAX_RAW_KV_SCAN_LIMIT : Nat := 10240

/-- `ScanInner` of the facade (`src/raw.rs`). -/
structure ScanInner where
  range : BoundRange
  limit : Nat
  key_only : Bool

/-- `ScanInner::execute`: reject a limit above `MAX_RAW_KV_SCAN_LIMIT` with
`Error::max_scan_limit_exceeded(limit, max)` before anything else; then
validate the range via `into_keys`; only then dispatch `raw_scan`. -/
def ScanInner.execute (s : ScanInner) (pd : PdClient)
    (dispatch : RawScanRequest → Except Error RawScanResponse)
    (cf : Option ColumnFamily) :
    Except Error (List KvPair) × List RawScanRequest :=
  if s.limit > MAX_RAW_KV_SCAN_LIMIT then
    (Except.error (Error.maxScanLimitExceeded s.limit MAX_RAW_KV_SCAN_LIMIT), [])
  else
    match intoKeys s.range with
    | Except.error e => (Except.error e, [])
    | Except.ok keys => rawScanCall pd dispatch keys s.limit s.key_only cf

/-- `BatchScanInner` of the facade (`src/raw.rs`); the ranges were already
converted by `KeyRange::into_keys` at construction time. -/
structure BatchScanInner where
  ranges : List (Except Error (Key × Option Key))
  each_limit : Nat
  key_only : Bool

/-- `BatchScanInner::execute`: reject an `each_limit` above
`MAX_RAW_KV_SCAN_LIMIT` first; then reject when any range failed
conversion (all such failures are `InvalidKeyRange`); only then dispatch
`raw_batch_scan`. -/
def BatchScanInner.execute (b : BatchScanInner) (pd : PdClient)
    (dispatch : RawBatchScanRequest → Except Error RawBatchScanResponse)
    (cf : Option ColumnFamily) :
    Except Error (List KvPair) × List RawBatchScanRequest :=
  if b.each_limit > MAX_RAW_KV_SCAN_LIMIT then
    (Except.error (Error.maxScanLimitExceeded b.each_limit MAX_RAW_KV_SCAN_LIMIT), [])
  else if b.ranges.any (fun r => !r.toBool) then
    (Except.error Error.invalidKeyRange, [])
  else
    rawBatchScanCall pd dispatch (b.ranges.filterMap Except.toOption)
      b.each_limit b.key_only cf

/-- `DeleteRangeInner` of the facade (`src/raw.rs`); the range was already
converted by `KeyRange::into_keys` at construction time. -/
structure DeleteRangeInner where
  range : Except Error (Key × Option Key)

/-- `DeleteRangeInner::execute`: a failed range conversion yields its error
with no wire call; otherwise dispatch `raw_delete_range`. -/
def DeleteRangeInner.execute (d : DeleteRangeInner) (pd : PdClient)
    (dispatch : RawDeleteRangeRequest → Except Error Unit)
    (cf : Option ColumnFamily) :
    Except Error Unit × List RawDeleteRangeRequest :=
  match d.range with
  | Except.ok r => rawDeleteRangeCall pd dispatch r cf
  | Except.error e => (Except.error e, [])

/-- The groups produced by `groupByRegion` cover the input exactly once:
flattening them back yields a permutation of the input list. -/
theorem groupByRegion_flatten_perm {α : Type} (rid : α → Nat) :
    ∀ l : List α, (((groupByRegion rid l).map Prod.snd).flatten).Perm l := by
  suffices h : ∀ (n : Nat) (l : List α), l.length = n →
      (((groupByRegion rid l).map Prod.snd).flatten).Perm l by
    exact fun l => h l.length l rfl
  intro n
  induction n using Nat.strong_induction_on with
  | _ n ih =>
    intro l hn
    match l with
    | [] => simp [groupByRegion]
    | x :: xs =>
      rw [groupByRegion]
      simp only [List.map_cons, List.flatten_cons, List.cons_append]
      refine List.Perm.trans ?_
        ((List.filter_append_perm (fun y => rid y == rid x) xs).cons x)
      refine List.Perm.cons x (List.Perm.append_left _ ?_)
      subst hn
      exact ih (xs.filter (fun y => !(rid y == rid x))).length
        (Nat.lt_succ_of_le (List.length_filter_le _ _)) _ rfl

/-- When every region-id lookup succeeds, the successful elements of a
mapped group stream carry exactly the groups, in order. -/
theorem okKeyGroups_of_ok {β : Type} (f : Nat → Except Error Store)
    (h : ∀ r, ∃ s, f r = Except.ok s) (gs : List (Nat × List β)) :
    okKeyGroups (gs.map fun g => Except.map (fun store => (g.2, store)) (f g.1)) =
      gs.map Prod.snd := by
  induction gs with
  | nil => rfl
  | cons g gs ih =>
    obtain ⟨s, hs⟩ := h g.1
    have hhead : okKeyGroups
        ((g :: gs).map fun g => Except.map (fun store => (g.2, store)) (f g.1)) =
        g.2 :: okKeyGroups
          (gs.map fun g => Except.map (fun store => (g.2, store)) (f g.1)) := by
      rw [List.map_cons, hs]
      rfl
    rw [hhead, ih, List.map_cons]

/-- Concatenation-reduce over all-successful partial results succeeds with
the flattened list. -/
theorem tryConcat_map_ok {α : Type} (rs : List (List α)) :
    tryConcat (rs.map Except.ok) = Except.ok rs.flatten := by
  induction rs with
  | nil => rfl
  | cons r rs ih => simp [tryConcat, ih, Except.map, List.flatten_cons]

/-- Flattening respects permutation of the outer list. -/
theorem perm_flatten {α : Type} {l₁ l₂ : List (List α)} (h : l₁.Perm l₂) :
    l₁.flatten.Perm l₂.flatten := by
  induction h with
  | nil => exact List.Perm.refl _
  | cons x _ ih => simpa using ih.append_left x
  | swap x y l =>
    simp only [List.flatten_cons]
    rw [← List.append_assoc, ← List.append_assoc]
    exact List.perm_append_comm.append_right _
  | trans _ _ ih₁ ih₂ => exact ih₁.trans ih₂

/-- The unit `try_collect` succeeds exactly when every element succeeded. -/
theorem tryCollectUnit_ok_iff (rs : List (Except Error Unit)) :
    tryCollectUnit rs = Except.ok () ↔ ∀ r ∈ rs, r = Except.ok () := by
  induction rs with
  | nil => simp [tryCollectUnit]
  | cons r rs ih =>
    cases r with
    | error e => simp [tryCollectUnit]
    | ok u => cases u; simp [tryCollectUnit, ih]

/-- Every wire request in the pipeline's dispatch trace was built by
`into_request` from a successful element of the store stream. -/
theorem runPipeline_trace_mem {κ ρ σ π : Type}
    (stream : List (Except Error (κ × Store))) (intoRequest : κ → Store → ρ)
    (dispatch : ρ → Except Error σ) (mapResult : σ → π) (w : ρ)
    (hw : w ∈ (runPipeline stream intoRequest dispatch mapResult).2) :
    ∃ k s, Except.ok (k, s) ∈ stream ∧ w = intoRequest k s := by
  induction stream with
  | nil => simp [runPipeline] at hw
  | cons e rest ih =>
    cases e with
    | error e =>
      rw [runPipeline] at hw
      obtain ⟨k, s, hks, hweq⟩ := ih hw
      exact ⟨k, s, List.mem_cons_of_mem _ hks, hweq⟩
    | ok ks =>
      obtain ⟨k, s⟩ := ks
      rw [runPipeline] at hw
      cases hd : dispatch (intoRequest k s) with
      | error e =>
        rw [hd] at hw
        rcases List.mem_cons.mp hw with hweq | hwrest
        · exact ⟨k, s, List.mem_cons_self _ _, hweq⟩
        · obtain ⟨k', s', hks, hweq⟩ := ih hwrest
          exact ⟨k', s', List.mem_cons_of_mem _ hks, hweq⟩
      | ok resp =>
        rw [hd] at hw
        rcases List.mem_cons.mp hw with hweq | hwrest
        · exact ⟨k, s, List.mem_cons_self _ _, hweq⟩
        · obtain ⟨k', s', hks, hweq⟩ := ih hwrest
          exact ⟨k', s', List.mem_cons_of_mem _ hks, hweq⟩

/-- A `raw_batch_scan` dispatch always resolves to the not-implemented
error and an empty wire trace, whatever its arguments. -/
theorem rawBatchScanCall_unimplemented (pd : PdClient)
    (dispatch : RawBatchScanRequest → Except Error RawBatchScanResponse)
    (ranges : List (Key × Option Key)) (each_limit : Nat) (key_only : Bool)
    (cf : Option ColumnFamily) :
    rawBatchScanCall pd dispatch ranges each_limit key_only cf =
      (Except.error Error.unimplemented, []) := rfl

/-- A fixture store in a fixture region. -/
def store0 : Store := { region := { id := 0, startKey := [], endKey := [] } }

/-- A fixture resolver that owns everything in one region. -/
def pd0 : PdClient :=
  { regionOf := fun _ => 0
    storeForKey := fun _ => Except.ok store0
    storeForId := fun _ => Except.ok store0
    storesForRange := fun _ => [Except.ok store0] }

/-- A fixture dispatcher answering every scan with no pairs. -/
def scanDispatch0 : RawScanRequest → Except Error RawScanResponse :=
  fun _ => Except.ok { kvs := [] }

/-- A fixture dispatcher for batch scans. -/
def batchScanDispatch0 : RawBatchScanRequest → Except Error RawBatchScanResponse :=
  fun _ => Except.ok { kvs := [] }

/-- A fixture dispatcher acknowledging every put. -/
def putDispatch0 : RawPutRequest → Except Error Unit := fun _ => Except.ok ()

/-- A fixture dispatcher acknowledging every batch put. -/
def batchPutDispatch0 : RawBatchPutRequest → Except Error Unit := fun _ => Except.ok ()

/-- A fixture dispatcher acknowledging every range delete. -/
def deleteRangeDispatch0 : RawDeleteRangeRequest → Except Error Unit := fun _ => Except.ok ()

/-- A fixture store owning the low half of the keyspace. -/
def storeA : Store := { region := { id := 1, startKey := [], endKey := [5] } }

/-- A fixture store owning the high half of the keyspace. -/
def storeB : Store := { region := { id := 2, startKey := [5], endKey := [] } }

/-- A fixture resolver with two regions intersecting every range. -/
def pdTwo : PdClient :=
  { regionOf := fun k => if keyLt k [5] then 1 else 2
    storeForKey := fun k => Except.ok (if keyLt k [5] then storeA else storeB)
    storeForId := fun r => Except.ok (if r == 1 then storeA else storeB)
    storesForRange := fun _ => [Except.ok storeA, Except.ok storeB] }

/-- A fixture dispatcher answering every scan with exactly one pair. -/
def scanDispatchOne : RawScanRequest → Except Error RawScanResponse :=
  fun req => Except.ok { kvs := [(req.startKey, [7])] }

/-- C1: for every key (or key-value pair) collection routed by the
region-grouping step of `BatchGet`, `BatchPut` and `BatchDelete`, assuming
the topology resolver answers every region-id lookup, the store stream
yields each input element exactly once across all (group, store) pairs:
flattening the dispatched groups gives a permutation of the input, so no
element is duplicated or dropped. -/
theorem batch_store_stream_routes_exactly_once (pd : PdClient)
    (h : ∀ r, ∃ s, pd.storeForId r = Except.ok s)
    (g : RawBatchGet) (p : RawBatchPut) (d : RawBatchDelete) :
    ((okKeyGroups (RawBatchGet.store_stream pd g)).flatten).Perm g.keys ∧
    ((okKeyGroups (RawBatchPut.store_stream pd p)).flatten).Perm p.pairs ∧
    ((okKeyGroups (RawBatchDelete.store_stream pd d)).flatten).Perm d.keys := by
  refine ⟨?_, ?_, ?_⟩
  · unfold RawBatchGet.store_stream
    rw [okKeyGroups_of_ok pd.storeForId h]
    exact groupByRegion_flatten_perm _ _
  · unfold RawBatchPut.store_stream
    rw [okKeyGroups_of_ok pd.storeForId h]
    exact groupByRegion_flatten_perm _ _
  · unfold RawBatchDelete.store_stream
    rw [okKeyGroups_of_ok pd.storeForId h]
    exact groupByRegion_flatten_perm _ _

/-- Witness for C1 at a concrete resolver and concrete batch inputs. -/
theorem batch_store_stream_routes_exactly_once_witness :
    ((okKeyGroups (RawBatchGet.store_stream pd0
        { keys := [[1], [2]], cf := none })).flatten).Perm [[1], [2]] ∧
    ((okKeyGroups (RawBatchPut.store_stream pd0
        { pairs := [([1], [9])], cf := none })).flatten).Perm [([1], [9])] ∧
    ((okKeyGroups (RawBatchDelete.store_stream pd0
        { keys := [[3]], cf := none })).flatten).Perm [[3]] :=
  batch_store_stream_routes_exactly_once pd0 (fun _ => ⟨store0, rfl⟩)
    { keys := [[1], [2]], cf := none } { pairs := [([1], [9])], cf := none }
    { keys := [[3]], cf := none }

/-- C2 counterexample: a `BatchScan` with `each_limit = 20000` fails with
the limit-exceeded validation error, not the not-implemented error, so the
claim that every input fails with a not-implemented error is false. -/
theorem batch_scan_not_always_unimplemented :
    BatchScanInner.execute { ranges := [], each_limit := 20000, key_only := false }
        pd0 batchScanDispatch0 none =
      (Except.error (Error.maxScanLimitExceeded 20000 10240), []) ∧
    Error.maxScanLimitExceeded 20000 10240 ≠ Error.unimplemented :=
  ⟨rfl, by decide⟩

/-- C2 amended: every `BatchScan` whose `each_limit` is within the maximum
and whose ranges all converted successfully fails with the not-implemented
error without dispatching anything; no input ever succeeds; and an input
whose `each_limit` is within the maximum but one of whose ranges failed
conversion fails with the invalid-key-range error, again without
dispatching anything. -/
theorem batch_scan_always_fails
    (pd pd' pd'' : PdClient)
    (dispatch dispatch' dispatch'' : RawBatchScanRequest → Except Error RawBatchScanResponse)
    (cf cf' cf'' : Option ColumnFamily) (b b' b'' : BatchScanInner) (l : List KvPair)
    (hlim : b.each_limit ≤ MAX_RAW_KV_SCAN_LIMIT)
    (hranges : ∀ r ∈ b.ranges, ∃ k, r = Except.ok k)
    (hlim'' : b''.each_limit ≤ MAX_RAW_KV_SCAN_LIMIT)
    (hbad : ∃ r ∈ b''.ranges, ∃ e, r = Except.error e) :
    BatchScanInner.execute b pd dispatch cf = (Except.error Error.unimplemented, []) ∧
    (BatchScanInner.execute b' pd' dispatch' cf').1 ≠ Except.ok l ∧
    BatchScanInner.execute b'' pd'' dispatch'' cf'' =
      (Except.error Error.invalidKeyRange, []) := by
  refine ⟨?_, ?_, ?_⟩
  · unfold BatchScanInner.execute
    rw [if_neg (Nat.not_lt.mpr hlim), if_neg ?hany, rawBatchScanCall_unimplemented]
    case hany =>
      intro hcontra
      rw [List.any_eq_true] at hcontra
      obtain ⟨r, hr, hb⟩ := hcontra
      obtain ⟨k, rfl⟩ := hranges r hr
      simp [Except.toBool] at hb
  · unfold BatchScanInner.execute
    split
    · simp
    · split
      · simp
      · rw [rawBatchScanCall_unimplemented]
        simp
  · have hany : b''.ranges.any (fun r => !r.toBool) = true := by
      rw [List.any_eq_true]
      obtain ⟨r, hr, e, rfl⟩ := hbad
      exact ⟨Except.error e, hr, rfl⟩
    unfold BatchScanInner.execute
    rw [if_neg (Nat.not_lt.mpr hlim''), if_pos hany]

/-- Witness for the amended C2 at concrete in-bounds inputs, one with all
ranges converted and one with a failed range conversion. -/
theorem batch_scan_always_fails_witness :
    BatchScanInner.execute
        { ranges := [Except.ok ([], none)], each_limit := 5, key_only := false }
        pd0 batchScanDispatch0 none = (Except.error Error.unimplemented, []) ∧
    (BatchScanInner.execute
        { ranges := [Except.ok ([], none)], each_limit := 5, key_only := false }
        pd0 batchScanDispatch0 none).1 ≠ Except.ok [] ∧
    BatchScanInner.execute
        { ranges := [Except.error Error.invalidKeyRange], each_limit := 5, key_only := false }
        pd0 batchScanDispatch0 none = (Except.error Error.invalidKeyRange, []) :=
  batch_scan_always_fails pd0 pd0 pd0 batchScanDispatch0 batchScanDispatch0
    batchScanDispatch0 none none none
    { ranges := [Except.ok ([], none)], each_limit := 5, key_only := false }
    { ranges := [Except.ok ([], none)], each_limit := 5, key_only := false }
    { ranges := [Except.error Error.invalidKeyRange], each_limit := 5, key_only := false }
    [] (by decide)
    (fun r hr => ⟨([], none), List.mem_singleton.mp hr⟩)
    (by decide)
    ⟨Except.error Error.invalidKeyRange, List.mem_singleton.mpr rfl,
      Error.invalidKeyRange, rfl⟩

/-- C3: a `Scan` whose limit exceeds the maximum and a `BatchScan` whose
`each_limit` exceeds the maximum both fail before any dispatch (empty wire
trace) with the limit-exceeded error carrying the requested limit and the
maximum 10240. -/
theorem scan_limit_validated_before_dispatch
    (pd pd' : PdClient) (dispatchS : RawScanRequest → Except Error RawScanResponse)
    (dispatchB : RawBatchScanRequest → Except Error RawBatchScanResponse)
    (cf cf' : Option ColumnFamily) (s : ScanInner) (b : BatchScanInner)
    (hs : s.limit > MAX_RAW_KV_SCAN_LIMIT) (hb : b.each_limit > MAX_RAW_KV_SCAN_LIMIT) :
    ScanInner.execute s pd dispatchS cf =
      (Except.error (Error.maxScanLimitExceeded s.limit MAX_RAW_KV_SCAN_LIMIT), []) ∧
    BatchScanInner.execute b pd' dispatchB cf' =
      (Except.error (Error.maxScanLimitExceeded b.each_limit MAX_RAW_KV_SCAN_LIMIT), []) ∧
    MAX_RAW_KV_SCAN_LIMIT = 10240 := by
  refine ⟨?_, ?_, rfl⟩
  · unfold ScanInner.execute
    rw [if_pos hs]
  · unfold BatchScanInner.execute
    rw [if_pos hb]

/-- Witness for C3: the end-to-end scenario of a scan with limit 20000. -/
theorem scan_limit_validated_before_dispatch_witness :
    ScanInner.execute { range := (none, none), limit := 20000, key_only := false }
        pd0 scanDispatch0 none =
      (Except.error (Error.maxScanLimitExceeded 20000 10240), []) ∧
    BatchScanInner.execute { ranges := [], each_limit := 20000, key_only := true }
        pd0 batchScanDispatch0 none =
      (Except.error (Error.maxScanLimitExceeded 20000 10240), []) ∧
    MAX_RAW_KV_SCAN_LIMIT = 10240 :=
  scan_limit_validated_before_dispatch pd0 pd0 scanDispatch0 batchScanDispatch0
    none none { range := (none, none), limit := 20000, key_only := false }
    { ranges := [], each_limit := 20000, key_only := true } (by decide) (by decide)

/-- C4: a `Put` whose value is empty and a `BatchPut` containing any pair
with an empty value fail with the empty-value error at validation, with an
empty wire trace: no call is attempted for any pair of the input. -/
theorem empty_value_rejected_before_dispatch
    (pd pd' : PdClient) (d1 : RawPutRequest → Except Error Unit)
    (d2 : RawBatchPutRequest → Except Error Unit) (k : Key) (v : Value)
    (pairs : List KvPair) (cf cf' : Option ColumnFamily)
    (hv : v = []) (hp : ∃ p ∈ pairs, p.2 = []) :
    rawPutCall pd d1 k v cf = (Except.error Error.emptyValue, []) ∧
    rawBatchPutCall pd' d2 pairs cf' = (Except.error Error.emptyValue, []) := by
  constructor
  · subst hv
    rfl
  · have hany : pairs.any (fun pair => pair.2.isEmpty) = true := by
      rw [List.any_eq_true]
      obtain ⟨p, hmem, hval⟩ := hp
      exact ⟨p, hmem, by rw [hval]; rfl⟩
    unfold rawBatchPutCall RawBatchPut.new
    rw [if_pos hany]

/-- Witness for C4 at a concrete empty-valued put and batch put. -/
theorem empty_value_rejected_before_dispatch_witness :
    rawPutCall pd0 putDispatch0 [1] [] none = (Except.error Error.emptyValue, []) ∧
    rawBatchPutCall pd0 batchPutDispatch0 [([1], [9]), ([2], [])] none =
      (Except.error Error.emptyValue, []) :=
  empty_value_rejected_before_dispatch pd0 pd0 putDispatch0 batchPutDispatch0
    [1] [] [([1], [9]), ([2], [])] none none rfl
    ⟨([2], []), by decide, rfl⟩

/-- C5: the `Get` result mapping returns absence exactly when the wire
response's value is the empty byte string, and `Some` of that value
otherwise; a stored empty value is therefore reported as absence. -/
theorem get_map_result_absence (resp : RawGetResponse) :
    (RawGet.map_result resp = none ↔ resp.value = []) ∧
    (resp.value ≠ [] → RawGet.map_result resp = some resp.value) ∧
    (∀ v, RawGet.map_result resp = some v → v = resp.value ∧ v ≠ []) := by
  obtain ⟨v⟩ := resp
  cases v with
  | nil => simp [RawGet.map_result]
  | cons a as =>
    refine ⟨by simp [RawGet.map_result], fun _ => by simp [RawGet.map_result], ?_⟩
    intro w hw
    rw [show RawGet.map_result { value := a :: as } = some (a :: as) from rfl] at hw
    injection hw with hw
    subst hw
    exact ⟨rfl, by simp⟩

/-- Witness for C5 at an empty-valued and a non-empty-valued response. -/
theorem get_map_result_absence_witness :
    ((RawGet.map_result { value := [] } = none ↔ ([] : Value) = []) ∧
      (([] : Value) ≠ [] → RawGet.map_result { value := [] } = some []) ∧
      (∀ v, RawGet.map_result { value := [] } = some v → v = [] ∧ v ≠ [])) ∧
    (([3] : Value) ≠ [] → RawGet.map_result { value := [3] } = some [3]) :=
  ⟨get_map_result_absence { value := [] },
    (get_map_result_absence { value := [3] }).2.1⟩

/-- C6: the reduce step of `BatchPut` and `BatchDelete` succeeds exactly
when every per-region partial result succeeded; any one dispatch error
makes the whole logical operation's result that failure, with no
compensation recorded. -/
theorem batch_write_reduce_all_or_nothing (rs : List (Except Error Unit)) :
    (RawBatchPut.reduce rs = Except.ok () ↔ ∀ r ∈ rs, r = Except.ok ()) ∧
    (RawBatchDelete.reduce rs = Except.ok () ↔ ∀ r ∈ rs, r = Except.ok ()) ∧
    (∀ e, Except.error e ∈ rs →
      ∃ e', RawBatchPut.reduce rs = Except.error e' ∧
        RawBatchDelete.reduce rs = Except.error e') := by
  refine ⟨tryCollectUnit_ok_iff rs, tryCollectUnit_ok_iff rs, ?_⟩
  intro e he
  cases hred : tryCollectUnit rs with
  | ok u =>
    cases u
    rw [tryCollectUnit_ok_iff] at hred
    exact absurd (hred _ he) (by simp)
  | error e' => exact ⟨e', hred, hred⟩

/-- Witness for C6 at a stream with one success and one failure. -/
theorem batch_write_reduce_all_or_nothing_witness :
    ∃ e', RawBatchPut.reduce [Except.ok (), Except.error (Error.grpc 3)] =
        Except.error e' ∧
      RawBatchDelete.reduce [Except.ok (), Except.error (Error.grpc 3)] =
        Except.error e' :=
  (batch_write_reduce_all_or_nothing
    [Except.ok (), Except.error (Error.grpc 3)]).2.2 (Error.grpc 3) (by simp)

/-- C7: the concatenation reduce of `BatchGet` and `Scan` on all-successful
per-region results succeeds with the flattened pair list, and permuting the
completion order of the per-region results permutes—but never changes the
multiset of—the returned pairs. -/
theorem concat_reduce_perm_invariant (rs rs' : List (List KvPair))
    (h : rs.Perm rs') :
    RawBatchGet.reduce (rs.map Except.ok) = Except.ok rs.flatten ∧
    RawScan.reduce (rs'.map Except.ok) = Except.ok rs'.flatten ∧
    rs.flatten.Perm rs'.flatten :=
  ⟨tryConcat_map_ok rs, tryConcat_map_ok rs', perm_flatten h⟩

/-- Witness for C7 at two concrete opposite-order result sequences. -/
theorem concat_reduce_perm_invariant_witness :
    RawBatchGet.reduce ([[([1], [4])], [([2], [5])]].map Except.ok) =
      Except.ok ([[([1], [4])], [([2], [5])]] : List (List KvPair)).flatten ∧
    RawScan.reduce ([[([2], [5])], [([1], [4])]].map Except.ok) =
      Except.ok ([[([2], [5])], [([1], [4])]] : List (List KvPair)).flatten ∧
    ([[([1], [4])], [([2], [5])]] : List (List KvPair)).flatten.Perm
      ([[([2], [5])], [([1], [4])]] : List (List KvPair)).flatten :=
  concat_reduce_perm_invariant [[([1], [4])], [([2], [5])]]
    [[([2], [5])], [([1], [4])]] (by decide)

/-- C8 counterexample: a `Scan` whose range is inverted (start `[2]` above
end `[1]`, both bounded) but whose limit is 20000 fails with the
limit-exceeded error, not the invalid-key-range error, because the limit
check runs first; so the claim as stated is false for `Scan`. -/
theorem scan_inverted_range_error_not_always_invalid :
    keyLt [1] [2] = true ∧
    ScanInner.execute { range := (some [2], some [1]), limit := 20000, key_only := false }
        pd0 scanDispatch0 none =
      (Except.error (Error.maxScanLimitExceeded 20000 10240), []) ∧
    Error.maxScanLimitExceeded 20000 10240 ≠ Error.invalidKeyRange :=
  ⟨rfl, rfl, by decide⟩

/-- C8 amended: a `DeleteRange` over an inverted range (start above end,
both bounded) fails with the invalid-key-range error and an empty wire
trace, unconditionally; a `Scan` over such a range does the same provided
its limit is within the maximum (otherwise the limit-exceeded error takes
precedence, still with no node call). -/
theorem inverted_range_rejected_before_dispatch
    (pd pd' : PdClient) (d1 : RawScanRequest → Except Error RawScanResponse)
    (d2 : RawDeleteRangeRequest → Except Error Unit) (cf cf' : Option ColumnFamily)
    (sk ek : Key) (s : ScanInner)
    (hinv : keyLt ek sk = true) (hr : s.range = (some sk, some ek))
    (hlim : s.limit ≤ MAX_RAW_KV_SCAN_LIMIT) :
    ScanInner.execute s pd d1 cf = (Except.error Error.invalidKeyRange, []) ∧
    DeleteRangeInner.execute { range := intoKeys (some sk, some ek) } pd' d2 cf' =
      (Except.error Error.invalidKeyRange, []) := by
  have hkeys : intoKeys (some sk, some ek) = Except.error Error.invalidKeyRange := by
    unfold intoKeys
    simp [hinv]
  constructor
  · unfold ScanInner.execute
    rw [if_neg (Nat.not_lt.mpr hlim), hr, hkeys]
  · unfold DeleteRangeInner.execute
    rw [hkeys]

/-- Witness for the amended C8 at a concrete inverted range. -/
theorem inverted_range_rejected_before_dispatch_witness :
    ScanInner.execute { range := (some [2], some [1]), limit := 10, key_only := false }
        pd0 scanDispatch0 none = (Except.error Error.invalidKeyRange, []) ∧
    DeleteRangeInner.execute { range := intoKeys (some [2], some [1]) }
        pd0 deleteRangeDispatch0 none =
      (Except.error Error.invalidKeyRange, []) :=
  inverted_range_rejected_before_dispatch pd0 pd0 scanDispatch0 deleteRangeDispatch0
    none none [2] [1] { range := (some [2], some [1]), limit := 10, key_only := false }
    rfl rfl (by decide)

/-- C9: every successful element of the store stream of `Scan` and
`DeleteRange` attaches the resolved region's own bounds as the routing
`(start, end)` pair, not the intersection with the caller's range; and the
stream depends on the request only through the caller's range handed to
`storesForRange`, which merely selects the regions. -/
theorem range_ops_dispatch_full_region_range (pd : PdClient) (sreq : RawScan)
    (dreq : RawDeleteRange) (range : Key × Key) (store : Store) :
    (Except.ok (range, store) ∈ RawScan.store_stream pd sreq →
      range = store.region.range) ∧
    (Except.ok (range, store) ∈ RawDeleteRange.store_stream pd dreq →
      range = store.region.range) ∧
    (∀ sreq' : RawScan, sreq'.range = sreq.range →
      RawScan.store_stream pd sreq' = RawScan.store_stream pd sreq) ∧
    (∀ dreq' : RawDeleteRange, dreq'.range = dreq.range →
      RawDeleteRange.store_stream pd dreq' = RawDeleteRange.store_stream pd dreq) := by
  refine ⟨?_, ?_, ?_, ?_⟩
  · intro hmem
    simp only [RawScan.store_stream, List.mem_map] at hmem
    obtain ⟨es, _, heq⟩ := hmem
    cases es with
    | error e => exact absurd heq (by simp [Except.map])
    | ok s =>
      simp only [Except.map, Except.ok.injEq, Prod.mk.injEq] at heq
      obtain ⟨hrange, hstore⟩ := heq
      rw [← hrange, hstore]
  · intro hmem
    simp only [RawDeleteRange.store_stream, List.mem_map] at hmem
    obtain ⟨es, _, heq⟩ := hmem
    cases es with
    | error e => exact absurd heq (by simp [Except.map])
    | ok s =>
      simp only [Except.map, Except.ok.injEq, Prod.mk.injEq] at heq
      obtain ⟨hrange, hstore⟩ := heq
      rw [← hrange, hstore]
  · intro sreq' h
    unfold RawScan.store_stream
    rw [h]
  · intro dreq' h
    unfold RawDeleteRange.store_stream
    rw [h]

/-- Witness for C9 at a concrete resolver whose single region is attached
with its own full bounds. -/
theorem range_ops_dispatch_full_region_range_witness :
    (([], []) : Key × Key) = store0.region.range ∧
    (([], []) : Key × Key) = store0.region.range :=
  ⟨(range_ops_dispatch_full_region_range pd0
      { range := (some [1], some [2]), limit := 1, key_only := false, cf := none }
      { range := (some [1], some [2]), cf := none } ([], []) store0).1
      (List.mem_singleton.mpr rfl),
    (range_ops_dispatch_full_region_range pd0
      { range := (some [1], some [2]), limit := 1, key_only := false, cf := none }
      { range := (some [1], some [2]), cf := none } ([], []) store0).2.1
      (List.mem_singleton.mpr rfl)⟩

/-- C10: every wire request in the dispatch trace of a `Scan` execution
carries the caller's limit unchanged, so the limit bounds each region's
result independently; and the reduced final result is not bounded by the
limit: there is an execution over two regions, each respecting the
per-region limit, whose final result holds twice the limit of pairs. -/
theorem scan_limit_is_per_region (pd : PdClient)
    (dispatch : RawScanRequest → Except Error RawScanResponse) (req : RawScan)
    (w : RawScanRequest) (hw : w ∈ (RawScan.execute pd dispatch req).2) :
    w.limit = req.limit ∧
    (∃ (pd2 : PdClient) (d2 : RawScanRequest → Except Error RawScanResponse)
        (r2 : RawScan) (l : List KvPair),
        (RawScan.execute pd2 d2 r2).1 = Except.ok l ∧
        (∀ w2 ∈ (RawScan.execute pd2 d2 r2).2, w2.limit = r2.limit) ∧
        r2.limit < l.length) := by
  constructor
  · obtain ⟨k, s, _, rfl⟩ := runPipeline_trace_mem _ _ _ _ w hw
    rfl
  · refine ⟨pdTwo, scanDispatchOne,
      { range := (none, none), limit := 1, key_only := false, cf := none },
      [([], [7]), ([5], [7])], rfl, ?_, by decide⟩
    intro w2 hw2
    obtain ⟨k, s, _, rfl⟩ := runPipeline_trace_mem _ _ _ _ w2 hw2
    rfl

/-- Witness for C10 at a concrete single-region scan with limit 7. -/
theorem scan_limit_is_per_region_witness :
    ({ startKey := [], endKey := [], limit := 7, key_only := false, cf := none } :
        RawScanRequest).limit = 7 ∧
    (∃ (pd2 : PdClient) (d2 : RawScanRequest → Except Error RawScanResponse)
        (r2 : RawScan) (l : List KvPair),
        (RawScan.execute pd2 d2 r2).1 = Except.ok l ∧
        (∀ w2 ∈ (RawScan.execute pd2 d2 r2).2, w2.limit = r2.limit) ∧
        r2.limit < l.length) :=
  scan_limit_is_per_region pd0 scanDispatch0
    { range := (none, none), limit := 7, key_only := false, cf := none }
    { startKey := [], endKey := [], limit := 7, key_only := false, cf := none }
    (List.mem_singleton.mpr rfl)

end ClientRust
